import Mathlib

/-!
Verification development for the AQEye firmware (src/AirQ.ino).

This file gives a shallow embedding of the firmware pieces the claims are
about: the fixed-size log-record codec, the NVS/Preferences key-value store
and the LittleFS file store, the append path `logDataToFlash`, the legacy
migration `migrateLegacyData`, the RTC clock-gate flags, the chunked
transfer controller (`prepareLoggedDataForChunking`, `loadNextBatch`,
`sendLoggedDataChunk`), and the BLE task's live-push loop.

Embedding conventions:
- machine integers are `Nat` with explicit `% 2^w` where truncation matters;
- the NVS store is a list of (key, value) pairs; the key strings
  "log<i>", "log_<i>" and "data_<i>" used by the firmware are modelled by a
  structured key type `PKey` (distinct strings correspond to distinct
  `PKey` values, since the decimal rendering of an index is injective);
- Arduino `String` text is modelled as `List Char`;
- environment-dependent outcomes (flash write success, mutex acquisition,
  current wall-clock value) are explicit parameters.
-/

set_option maxRecDepth 8000

namespace AirQ

/-- `MAX_LOG_ENTRIES` from AirQ.ino (capacity of the circular log). -/
def MAX_LOG_ENTRIES : Nat := 100000

/-- `MAX_CHUNK_SIZE` from AirQ.ino (BLE chunk byte budget). -/
def MAX_CHUNK_SIZE : Nat := 400

/-- `ENTRIES_PER_BATCH` from AirQ.ino (records loaded per cache refill). -/
def ENTRIES_PER_BATCH : Nat := 200

/-- The timestamp sanity floor 1609459200 (Jan 1, 2021) used by AirQ.ino. -/
def TIME_FLOOR : Nat := 1609459200

/-- `ERROR_FLASH_WRITE_FAILED` from AirQ.ino. -/
def ERROR_FLASH_WRITE_FAILED : Nat := 5

/-- The compact `LogData` record persisted to flash (struct LogData in
AirQ.ino): u32 timestamp, three u16 particulate fields, u8 battery. -/
structure LogData where
  timestamp : Nat
  pm1_0_env : Nat
  pm2_5_env : Nat
  pm10_0_env : Nat
  battery_level : Nat
deriving DecidableEq, Repr

/-- The live `SensorData` reading (struct SensorData in AirQ.ino).  Only the
fields that the modelled operations read are included; the remaining
particle-count and standard-concentration fields are never consumed by the
append, migration or transfer paths. -/
structure SensorData where
  pm1_0_env : Nat
  pm2_5_env : Nat
  pm10_0_env : Nat
  battery_level : Nat
  timestamp : Nat
deriving DecidableEq, Repr

/-! ## Log record codec (saveLogToLittleFS / readLogFromLittleFS)

`saveLogToLittleFS` writes the raw bytes of the `LogData` struct
(`logFile.write((const uint8_t*)&logEntry, sizeof(LogData))`); the data
bytes are, little-endian: 4 timestamp bytes, 2 bytes for each particulate
field, 1 battery byte (11 data bytes; a trailing alignment pad carries no
field data).  `readLogFromLittleFS` zero-initialises a record
(`LogData logEntry = {0}`), reads whatever bytes the file holds into its
front, and returns the record even when the read was short. -/

/-- Byte serialisation of a `LogData` record, as written by
`saveLogToLittleFS`. -/
def encodeLogData (d : LogData) : List Nat :=
  [ d.timestamp % 256, d.timestamp / 256 % 256,
    d.timestamp / 65536 % 256, d.timestamp / 16777216 % 256,
    d.pm1_0_env % 256, d.pm1_0_env / 256 % 256,
    d.pm2_5_env % 256, d.pm2_5_env / 256 % 256,
    d.pm10_0_env % 256, d.pm10_0_env / 256 % 256,
    d.battery_level % 256 ]

/-- Byte `i` of the buffer that `readLogFromLittleFS` filled: bytes past the
end of the data read stay at their zero initialisation. -/
def byteAt (bs : List Nat) (i : Nat) : Nat := (bs.drop i).headD 0

/-- The record `readLogFromLittleFS` returns for a file holding `bs`:
fields are rebuilt from the bytes read, missing bytes are zero. -/
def decodeLogData (bs : List Nat) : LogData :=
  { timestamp := byteAt bs 0 + 256 * byteAt bs 1 + 65536 * byteAt bs 2 +
      16777216 * byteAt bs 3
    pm1_0_env := byteAt bs 4 + 256 * byteAt bs 5
    pm2_5_env := byteAt bs 6 + 256 * byteAt bs 7
    pm10_0_env := byteAt bs 8 + 256 * byteAt bs 9
    battery_level := byteAt bs 10 }

/-- Modelled from the spec: the codec contract of section 4.1, under which
decoding fewer than the fixed number of bytes fails (`CorruptRecord`)
instead of producing a record.  Used only to compare the spec's contract
with the source behaviour `decodeLogData`. -/
def decodeContract (bs : List Nat) : Option LogData :=
  if bs.length < 11 then none else some (decodeLogData bs)

/-! ## RTC clock gate (initRTC / setRTCTime / setRTCTimeFromBLE / getRTCTime) -/

/-- The two clock-gate flags of AirQ.ino: `rtcTimeSet` and
`rtcTimeAccurate`. -/
structure RTCState where
  rtcTimeSet : Bool
  rtcTimeAccurate : Bool
deriving DecidableEq, Repr

/-- `initRTC`: after any reset both flags are cleared. -/
def initRTCState : RTCState := ⟨false, false⟩

/-- `setRTCTime`: a local clock write marks the clock as set (the written
epoch value lives in the system clock, modelled by the `realNow` input of
`getRTCTime`). -/
def setRTCTime (s : RTCState) : RTCState := { s with rtcTimeSet := true }

/-- `setRTCTimeFromBLE`: calls `setRTCTime` and then marks the time
accurate; this is the only assignment of `true` to `rtcTimeAccurate` in the
firmware. -/
def setRTCTimeFromBLE (s : RTCState) : RTCState :=
  { setRTCTime s with rtcTimeAccurate := true }

/-- The three operations that touch the clock-gate flags anywhere in
AirQ.ino: a boot (`initRTC`), a local clock write (`setRTCTime`), and a
BLE-sync clock write (`setRTCTimeFromBLE`). -/
inductive RTCOp where
  | boot
  | localWrite
  | bleWrite
deriving DecidableEq, Repr

/-- One clock-gate transition. -/
def stepRTC (s : RTCState) : RTCOp → RTCState
  | RTCOp.boot => initRTCState
  | RTCOp.localWrite => setRTCTime s
  | RTCOp.bleWrite => setRTCTimeFromBLE s

/-- The clock-gate state after a sequence of operations from boot. -/
def runRTC (ops : List RTCOp) : RTCState := ops.foldl stepRTC initRTCState

/-- `getRTCTime`: when the clock was never set it returns the
uptime-derived pseudo-time `1609459200 + millis()/1000`; otherwise it
returns the current system clock (`gettimeofday`), modelled by `realNow`. -/
def getRTCTime (s : RTCState) (realNow uptimeMs : Nat) : Nat :=
  if s.rtcTimeSet then realNow else 1609459200 + uptimeMs / 1000

/-- The compact entry `logDataToFlash` builds from a reading: the timestamp
is `getRTCTime`, the rest is copied from the reading. -/
def logEntryOf (clk : RTCState) (realNow uptimeMs : Nat) (data : SensorData) :
    LogData :=
  { timestamp := getRTCTime clk realNow uptimeMs
    pm1_0_env := data.pm1_0_env
    pm2_5_env := data.pm2_5_env
    pm10_0_env := data.pm10_0_env
    battery_level := data.battery_level }

/-! ## NVS (Preferences) key-value store and LittleFS file store

The firmware addresses NVS entries through three key shapes:
`"log" + i` (current circular slots), `"log_" + i` and `"data_" + i`
(legacy formats).  Distinct strings correspond to distinct `PKey`
values. -/

/-- Structured model of the NVS key strings used by AirQ.ino. -/
inductive PKey where
  | log (i : Nat)
  | logU (i : Nat)
  | dataK (i : Nat)
deriving DecidableEq, Repr

/-- A blob stored under an NVS key: `getBytes` with `sizeof(LogData)`
succeeds exactly on a `LogData`-sized blob, and with `sizeof(SensorData)`
exactly on a `SensorData`-sized blob (the two sizes differ). -/
inductive PrefVal where
  | ld (d : LogData)
  | sd (s : SensorData)
deriving DecidableEq, Repr

/-- Look a key up in the NVS store (first binding wins). -/
def plookup : List (PKey × PrefVal) → PKey → Option PrefVal
  | [], _ => none
  | kv :: t, k => if kv.1 = k then some kv.2 else plookup t k

/-- `preferences.remove(key)`: drops every binding of the key. -/
def premove : List (PKey × PrefVal) → PKey → List (PKey × PrefVal)
  | [], _ => []
  | kv :: t, k => if kv.1 = k then premove t k else kv :: premove t k

/-- `preferences.putBytes(key, ...)`: stores the blob, replacing any
previous value of the key. -/
def pput (l : List (PKey × PrefVal)) (k : PKey) (v : PrefVal) :
    List (PKey × PrefVal) :=
  (k, v) :: premove l k

/-- `preferences.getBytes(key, &logEntry, sizeof(LogData))` returning
exactly `sizeof(LogData)` bytes. -/
def getLD (l : List (PKey × PrefVal)) (k : PKey) : Option LogData :=
  match plookup l k with
  | some (PrefVal.ld d) => some d
  | _ => none

/-- `preferences.getBytes(key, &legacyData, sizeof(SensorData))` returning
exactly `sizeof(SensorData)` bytes. -/
def getSD (l : List (PKey × PrefVal)) (k : PKey) : Option SensorData :=
  match plookup l k with
  | some (PrefVal.sd s) => some s
  | _ => none

/-- LittleFS log lookup by record index (one file per record under
`getLittleFSLogPath`). -/
def fsLookup : List (Nat × LogData) → Nat → Option LogData
  | [], _ => none
  | p :: t, i => if p.1 = i then some p.2 else fsLookup t i

/-- Writing record file `i` (`LittleFS.open(path, "w")` truncates, so the
write replaces any previous content of that index). -/
def fsSet (fs : List (Nat × LogData)) (i : Nat) (d : LogData) :
    List (Nat × LogData) :=
  (i, d) :: fs.filter (fun p => p.1 != i)

/-- The all-zero record `readLogFromLittleFS` starts from. -/
def zeroLog : LogData := ⟨0, 0, 0, 0, 0⟩

/-- The mutable storage state of the firmware: the NVS store and its stored
`"logIndex"` integer, the LittleFS record files and the metadata index, the
in-RAM `logIndex` global, the active-backend flag `useLittleFS`, and
`lastError`. -/
structure FlashState where
  prefs : List (PKey × PrefVal)
  prefsLogIndex : Nat
  fs : List (Nat × LogData)
  fsMeta : Nat
  logIndex : Nat
  useLittleFS : Bool
  lastError : Nat
deriving DecidableEq, Repr

/-- `readLogFromLittleFS(index)`: returns the stored record, or the
zero-initialised record when the file is missing. -/
def readLogFromLittleFS (st : FlashState) (i : Nat) : LogData :=
  (fsLookup st.fs i).getD zeroLog

/-! ## The append path `logDataToFlash` (AirQ.ino lines 711-812) -/

/-- `saveLogToLittleFS`: on a successful write the record is stored at the
current index, `logIndex` is incremented and the metadata file updated; on
a failed directory creation, open, or short write, `lastError` is set and
nothing else changes.  The Boolean result reports whether the record was
written. -/
def saveLogToLittleFS (st : FlashState) (entry : LogData) (fsWriteOk : Bool) :
    FlashState × Bool :=
  if fsWriteOk then
    ({ st with fs := fsSet st.fs st.logIndex entry,
               logIndex := st.logIndex + 1,
               fsMeta := st.logIndex + 1 }, true)
  else
    ({ st with lastError := ERROR_FLASH_WRITE_FAILED }, false)

/-- The emergency cleanup `logDataToFlash` runs after a failed NVS write:
when the circular buffer has wrapped it removes the ten oldest slots about
to be overwritten; otherwise it removes ten legacy `"log_"` keys. -/
def emergencyCleanup (st : FlashState) : FlashState :=
  if MAX_LOG_ENTRIES ≤ st.logIndex then
    { st with prefs := ((List.range 10).foldl (fun l i =>
        premove l (PKey.log ((st.logIndex - MAX_LOG_ENTRIES + i) % MAX_LOG_ENTRIES)))
        st.prefs) }
  else
    { st with prefs := ((List.range 10).foldl (fun l i =>
        premove l (PKey.logU i)) st.prefs) }

/-- Storing the entry under the circular slot key and advancing the write
index (`logIndex++; preferences.putInt("logIndex", logIndex)`). -/
def advanceKV (st : FlashState) (key : PKey) (entry : LogData) : FlashState :=
  { st with prefs := pput st.prefs key (PrefVal.ld entry),
            logIndex := st.logIndex + 1,
            prefsLogIndex := st.logIndex + 1 }

/-- Result of one `logDataToFlash` call: the new state, how many
`putBytes` attempts were made for the record, and whether a record write
succeeded. -/
structure AppendOut where
  st : FlashState
  writeAttempts : Nat
  wrote : Bool
deriving DecidableEq, Repr

/-- The targeted pre-write cleanup of `logDataToFlash`: when fewer than 10
NVS entries remain free and the circular buffer has wrapped, the single
slot about to be overwritten is removed first. -/
def preCleanup (st : FlashState) (freeEntries : Nat) : FlashState :=
  if freeEntries < 10 ∧ MAX_LOG_ENTRIES ≤ st.logIndex then
    { st with prefs := (premove st.prefs
        (PKey.log ((st.logIndex - MAX_LOG_ENTRIES) % MAX_LOG_ENTRIES))) }
  else st

/-- The NVS (Preferences) branch of `logDataToFlash`: pre-write cleanup,
first `putBytes` attempt, and on failure (`result == 0`) `lastError` is
set, the emergency cleanup runs, and exactly one retry is made.
`kvWriteOk` lists the outcomes the flash gives to the successive
`putBytes` attempts. -/
def logDataToFlashKV (st : FlashState) (entry : LogData) (freeEntries : Nat)
    (kvWriteOk : List Bool) : AppendOut :=
  let key := PKey.log (st.logIndex % MAX_LOG_ENTRIES)
  let st1 := preCleanup st freeEntries
  if kvWriteOk.getD 0 true then
    ⟨advanceKV st1 key entry, 1, true⟩
  else
    let st2 := emergencyCleanup
      { st1 with lastError := ERROR_FLASH_WRITE_FAILED }
    if kvWriteOk.getD 1 true then
      ⟨advanceKV st2 key entry, 2, true⟩
    else
      ⟨st2, 2, false⟩

/-- `logDataToFlash` (AirQ.ino lines 711-812).  Gated on
`rtcTimeAccurate` and on the timestamp sanity floor; then either the
LittleFS path (`saveLogToLittleFS`) or the NVS path
(`logDataToFlashKV`). -/
def logDataToFlash (st : FlashState) (clk : RTCState) (realNow uptimeMs : Nat)
    (data : SensorData) (freeEntries : Nat) (fsWriteOk : Bool)
    (kvWriteOk : List Bool) : AppendOut :=
  if clk.rtcTimeAccurate = false then ⟨st, 0, false⟩
  else if getRTCTime clk realNow uptimeMs < TIME_FLOOR then ⟨st, 0, false⟩
  else
    let entry := logEntryOf clk realNow uptimeMs data
    if st.useLittleFS then
      let r := saveLogToLittleFS st entry fsWriteOk
      ⟨r.1, 0, r.2⟩
    else
      logDataToFlashKV st entry freeEntries kvWriteOk

/-! ## Theorems for C8, C4, C10 -/

/-- C8 (amended): encoding a `LogData` record whose fields are in range
(u32 timestamp, u16 particulates, u8 battery) and decoding the bytes yields
the record again, and the encoding has the fixed size of 11 data bytes.
(The claim's second half — that decoding fewer than the fixed number of
bytes fails — does not hold on the code; see
`decode_short_still_record`.) -/
theorem decode_encode_roundtrip (d : LogData)
    (hts : d.timestamp < 4294967296) (h1 : d.pm1_0_env < 65536)
    (h25 : d.pm2_5_env < 65536) (h10 : d.pm10_0_env < 65536)
    (hb : d.battery_level < 256) :
    decodeLogData (encodeLogData d) = d ∧ (encodeLogData d).length = 11 := by
  obtain ⟨a, b, c, e, f⟩ := d
  dsimp only at hts h1 h25 h10 hb
  refine ⟨?_, rfl⟩
  have h : decodeLogData (encodeLogData (LogData.mk a b c e f)) =
      LogData.mk
        (a % 256 + 256 * (a / 256 % 256) + 65536 * (a / 65536 % 256) +
          16777216 * (a / 16777216 % 256))
        (b % 256 + 256 * (b / 256 % 256))
        (c % 256 + 256 * (c / 256 % 256))
        (e % 256 + 256 * (e / 256 % 256))
        (f % 256) := rfl
  rw [h]
  simp only [LogData.mk.injEq]
  refine ⟨?_, ?_, ?_, ?_, ?_⟩ <;> omega

/-- Witness for `decode_encode_roundtrip` at a concrete record. -/
theorem decode_encode_roundtrip_w :
    decodeLogData (encodeLogData ⟨1700000000, 100, 10, 100, 50⟩) =
      ⟨1700000000, 100, 10, 100, 50⟩ ∧
    (encodeLogData (⟨1700000000, 100, 10, 100, 50⟩ : LogData)).length = 11 :=
  decode_encode_roundtrip ⟨1700000000, 100, 10, 100, 50⟩ (by decide)
    (by decide) (by decide) (by decide) (by decide)

/-- C8 counterexample: on a short input the read path does not fail.
`readLogFromLittleFS` zero-initialises the record, copies whatever bytes
were read into its front, logs a warning on a short read, and still returns
the record (AirQ.ino lines 1901-1926); so the embedded decoder is total.
For the 4-byte front of an encoded record it produces a record whose
timestamp is positive, which the caller `loadNextBatch` accepts as valid
data — while the spec's contract `decodeContract` rejects the input. -/
theorem decode_short_still_record :
    decodeContract (List.take 4 (encodeLogData ⟨1700000000, 100, 10, 100, 50⟩)) = none ∧
    decodeLogData (List.take 4 (encodeLogData ⟨1700000000, 100, 10, 100, 50⟩)) =
      ⟨1700000000, 0, 0, 0, 0⟩ ∧
    0 < (decodeLogData (List.take 4 (encodeLogData ⟨1700000000, 100, 10, 100, 50⟩))).timestamp := by
  refine ⟨by decide, by decide, by decide⟩

/-- C4: the clock-gate transition structure.  `setRTCTime` never changes
`rtcTimeAccurate`; only `setRTCTimeFromBLE` sets it; boot (`initRTC`)
resets both flags; no operation other than boot clears either flag; and a
step that ends accurate either started accurate or was the BLE sync. -/
theorem clock_gate_transitions (s : RTCState) (op : RTCOp)
    (hop : op ≠ RTCOp.boot) :
    (setRTCTime s).rtcTimeAccurate = s.rtcTimeAccurate
    ∧ (setRTCTime s).rtcTimeSet = true
    ∧ (setRTCTimeFromBLE s).rtcTimeAccurate = true
    ∧ initRTCState.rtcTimeSet = false
    ∧ initRTCState.rtcTimeAccurate = false
    ∧ (∀ u : RTCState, stepRTC u RTCOp.boot = initRTCState)
    ∧ (s.rtcTimeSet = true → (stepRTC s op).rtcTimeSet = true)
    ∧ (s.rtcTimeAccurate = true → (stepRTC s op).rtcTimeAccurate = true)
    ∧ ((stepRTC s op).rtcTimeAccurate = true →
        s.rtcTimeAccurate = true ∨ op = RTCOp.bleWrite) := by
  obtain ⟨a, b⟩ := s
  cases op with
  | boot => exact absurd rfl hop
  | localWrite =>
      simp [stepRTC, setRTCTime, setRTCTimeFromBLE, initRTCState]
  | bleWrite =>
      simp [stepRTC, setRTCTime, setRTCTimeFromBLE, initRTCState]

/-- Witness for `clock_gate_transitions` at the accurate state and a local
clock write. -/
theorem clock_gate_transitions_w :
    (stepRTC ⟨true, true⟩ RTCOp.localWrite).rtcTimeAccurate = true :=
  (clock_gate_transitions ⟨true, true⟩ RTCOp.localWrite (by decide)).2.2.2.2.2.2.2.1 rfl

/-- In every state reachable by clock-gate operations from boot,
`rtcTimeAccurate` implies `rtcTimeSet`: the flag invariant behind C10. -/
theorem rtc_inv_aux (ops : List RTCOp) (s : RTCState)
    (h : s.rtcTimeAccurate = true → s.rtcTimeSet = true) :
    (ops.foldl stepRTC s).rtcTimeAccurate = true →
      (ops.foldl stepRTC s).rtcTimeSet = true := by
  induction ops generalizing s with
  | nil => exact h
  | cons op rest ih =>
      refine ih (stepRTC s op) ?_
      obtain ⟨a, b⟩ := s
      cases op <;>
        simp_all [stepRTC, setRTCTime, setRTCTimeFromBLE, initRTCState]

/-- C10: in every reachable clock-gate state, `rtcTimeAccurate = true`
implies `rtcTimeSet = true`; hence whenever the append gate is open,
`getRTCTime` returns the synced system clock (never the uptime-derived
pseudo-time `1609459200 + uptime`), and the record the append path builds
carries that real timestamp. -/
theorem accurate_implies_real_clock (ops : List RTCOp)
    (realNow uptimeMs : Nat) (d : SensorData)
    (h : (runRTC ops).rtcTimeAccurate = true) :
    (runRTC ops).rtcTimeSet = true
    ∧ getRTCTime (runRTC ops) realNow uptimeMs = realNow
    ∧ (logEntryOf (runRTC ops) realNow uptimeMs d).timestamp = realNow := by
  have hset : (runRTC ops).rtcTimeSet = true :=
    rtc_inv_aux ops initRTCState (fun hc => by simp [initRTCState] at hc) h
  refine ⟨hset, ?_, ?_⟩ <;> simp [logEntryOf, getRTCTime, hset]

/-- Witness for `accurate_implies_real_clock` after a BLE time sync. -/
theorem accurate_implies_real_clock_w :
    getRTCTime (runRTC [RTCOp.bleWrite]) 1700000000 5000 = 1700000000 :=
  (accurate_implies_real_clock [RTCOp.bleWrite] 1700000000 5000
    ⟨0, 0, 0, 0, 0⟩ (by decide)).2.1

/-! ## Removal lemmas for the NVS store -/

/-- Removing a key makes it unreadable. -/
theorem plookup_premove_self (l : List (PKey × PrefVal)) (k : PKey) :
    plookup (premove l k) k = none := by
  induction l with
  | nil => rfl
  | cons kv t ih =>
      by_cases h : kv.1 = k
      · simpa [premove, h] using ih
      · simpa [premove, plookup, h] using ih

/-- Removing one key leaves every other key unchanged. -/
theorem plookup_premove_ne (l : List (PKey × PrefVal)) (k q : PKey)
    (h : k ≠ q) : plookup (premove l q) k = plookup l k := by
  induction l with
  | nil => rfl
  | cons kv t ih =>
      by_cases hq : kv.1 = q
      · have hqk : ¬ q = k := fun hh => h hh.symm
        simp [premove, plookup, hq, hqk, ih]
      · by_cases hk : kv.1 = k
        · simp [premove, plookup, hq, hk, h]
        · simp [premove, plookup, hq, hk, ih]

/-- The store after some operations differs from the store before only by
removals: every key reads the same value or nothing. -/
def OnlyRemovals (l l2 : List (PKey × PrefVal)) : Prop :=
  ∀ k, getLD l2 k = getLD l k ∨ getLD l2 k = none

theorem onlyRemovals_refl (l : List (PKey × PrefVal)) : OnlyRemovals l l :=
  fun _ => Or.inl rfl

theorem onlyRemovals_trans {a b c : List (PKey × PrefVal)}
    (h1 : OnlyRemovals a b) (h2 : OnlyRemovals b c) : OnlyRemovals a c := by
  intro k
  rcases h2 k with h | h
  · rw [h]; exact h1 k
  · exact Or.inr h

theorem onlyRemovals_premove (l : List (PKey × PrefVal)) (q : PKey) :
    OnlyRemovals l (premove l q) := by
  intro k
  by_cases h : k = q
  · subst h
    exact Or.inr (by simp [getLD, plookup_premove_self])
  · exact Or.inl (by simp [getLD, plookup_premove_ne l k q h])

theorem onlyRemovals_foldl (f : Nat → PKey) (is : List Nat)
    (l : List (PKey × PrefVal)) :
    OnlyRemovals l (is.foldl (fun acc i => premove acc (f i)) l) := by
  induction is generalizing l with
  | nil => exact onlyRemovals_refl l
  | cons i t ih =>
      exact onlyRemovals_trans (onlyRemovals_premove l (f i))
        (ih (premove l (f i)))

/-- Neither cleanup changes the write index. -/
theorem preCleanup_logIndex (st : FlashState) (f : Nat) :
    (preCleanup st f).logIndex = st.logIndex := by
  unfold preCleanup; split <;> rfl

theorem preCleanup_onlyRemovals (st : FlashState) (f : Nat) :
    OnlyRemovals st.prefs (preCleanup st f).prefs := by
  unfold preCleanup; split
  · exact onlyRemovals_premove _ _
  · exact onlyRemovals_refl _

theorem emergencyCleanup_logIndex (s : FlashState) :
    (emergencyCleanup s).logIndex = s.logIndex := by
  unfold emergencyCleanup; split <;> rfl

theorem emergencyCleanup_onlyRemovals (s : FlashState) :
    OnlyRemovals s.prefs (emergencyCleanup s).prefs := by
  unfold emergencyCleanup
  split
  · exact onlyRemovals_foldl
      (fun i => PKey.log ((s.logIndex - MAX_LOG_ENTRIES + i) % MAX_LOG_ENTRIES))
      (List.range 10) s.prefs
  · exact onlyRemovals_foldl (fun i => PKey.logU i) (List.range 10) s.prefs

/-! ## Theorems for C1 and C3 -/

/-- C1: for every sensor reading and every clock-gate state with
`rtcTimeAccurate = false` (Unset or SetInaccurate), `logDataToFlash` is a
no-op: it returns at the gate with no write attempt, no record stored in
either backend, and the state — `logIndex` and all retained records —
unchanged; in particular three consecutive appends leave the state where it
started. -/
theorem append_gate_noop (st : FlashState) (clk : RTCState)
    (realNow uptimeMs : Nat) (d1 d2 d3 : SensorData) (freeEntries : Nat)
    (fsOk : Bool) (kvOk : List Bool)
    (h : clk.rtcTimeAccurate = false) :
    logDataToFlash st clk realNow uptimeMs d1 freeEntries fsOk kvOk =
      ⟨st, 0, false⟩
    ∧ (logDataToFlash (logDataToFlash
        (logDataToFlash st clk realNow uptimeMs d1 freeEntries fsOk kvOk).st
        clk realNow uptimeMs d2 freeEntries fsOk kvOk).st
        clk realNow uptimeMs d3 freeEntries fsOk kvOk).st = st := by
  simp [logDataToFlash, h]

/-- A fixed sensor reading used by concrete scenarios. -/
def sampleData : SensorData := ⟨100, 10, 100, 50, 0⟩

/-- A fresh LittleFS-backed state used by concrete scenarios. -/
def sampleState : FlashState :=
  { prefs := [], prefsLogIndex := 0, fs := [], fsMeta := 0,
    logIndex := 7, useLittleFS := true, lastError := 0 }

/-- Witness for `append_gate_noop` in the SetInaccurate state. -/
theorem append_gate_noop_w :
    logDataToFlash sampleState ⟨true, false⟩ 1700000000 0 sampleData 500
      true [] = ⟨sampleState, 0, false⟩ :=
  (append_gate_noop sampleState ⟨true, false⟩ 1700000000 0 sampleData
    sampleData sampleData 500 true [] rfl).1

/-- A wrapped NVS-backed state: the circular buffer is full
(`logIndex = MAX_LOG_ENTRIES`) and logical record 0 — the oldest retained
record — is present in its slot. -/
def wrappedState : FlashState :=
  { prefs := [(PKey.log 0, PrefVal.ld ⟨1690000000, 1, 2, 3, 4⟩)],
    prefsLogIndex := 100000, fs := [], fsMeta := 0,
    logIndex := 100000, useLittleFS := false, lastError := 0 }

/-- C3 counterexample: when both the NVS write and its retry fail, the
write index is unchanged and no record was added — but the Log Store state
is NOT unchanged: the emergency reclamation removed the oldest retained
record (slot key `log0`, logical index 0 of the retained window), so the
claim's "on final failure the Log Store state (writeIndex and retained
records) is unchanged" is false at this input. -/
theorem append_failure_removes_retained :
    (logDataToFlash wrappedState ⟨true, true⟩ 1700000000 0 sampleData 500
      true [false, false]).st.logIndex = wrappedState.logIndex
    ∧ (logDataToFlash wrappedState ⟨true, true⟩ 1700000000 0 sampleData 500
      true [false, false]).wrote = false
    ∧ getLD wrappedState.prefs (PKey.log 0) = some ⟨1690000000, 1, 2, 3, 4⟩
    ∧ getLD (logDataToFlash wrappedState ⟨true, true⟩ 1700000000 0 sampleData
      500 true [false, false]).st.prefs (PKey.log 0) = none := by
  refine ⟨by decide, by decide, by decide, by decide⟩

/-- C3 (amended): on the key-value backend, a first `putBytes` failure
triggers exactly one reclamation-and-retry (two write attempts in total,
one otherwise); the call reports success exactly when one of the attempts
succeeded; `logIndex` advances exactly on a successful call; and on final
failure `logIndex` is unchanged and no record was added or altered — the
store differs from the initial one only by the reclamation removals (which
may include up to ten of the oldest retained slots or legacy keys). -/
theorem append_kv_retry_behavior (st : FlashState) (clk : RTCState)
    (realNow uptimeMs : Nat) (data : SensorData) (freeEntries : Nat)
    (fsOk b1 b2 : Bool)
    (hfs : st.useLittleFS = false) (hacc : clk.rtcTimeAccurate = true)
    (hset : clk.rtcTimeSet = true) (hts : TIME_FLOOR ≤ realNow) :
    ((logDataToFlash st clk realNow uptimeMs data freeEntries fsOk
        [b1, b2]).writeAttempts = if b1 then 1 else 2)
    ∧ ((logDataToFlash st clk realNow uptimeMs data freeEntries fsOk
        [b1, b2]).wrote = (b1 || b2))
    ∧ ((logDataToFlash st clk realNow uptimeMs data freeEntries fsOk
        [b1, b2]).st.logIndex =
        if b1 || b2 then st.logIndex + 1 else st.logIndex)
    ∧ (b1 = false → b2 = false →
        (logDataToFlash st clk realNow uptimeMs data freeEntries fsOk
          [b1, b2]).st.logIndex = st.logIndex
        ∧ OnlyRemovals st.prefs
            (logDataToFlash st clk realNow uptimeMs data freeEntries fsOk
              [b1, b2]).st.prefs) := by
  have hg : getRTCTime clk realNow uptimeMs = realNow := by
    simp [getRTCTime, hset]
  have hnl : ¬ realNow < TIME_FLOOR := Nat.not_lt.mpr hts
  have hkv : logDataToFlash st clk realNow uptimeMs data freeEntries fsOk
      [b1, b2] = logDataToFlashKV st (logEntryOf clk realNow uptimeMs data)
      freeEntries [b1, b2] := by
    unfold logDataToFlash
    rw [if_neg (by simp [hacc]), if_neg (by rw [hg]; exact hnl),
      if_neg (by simp [hfs])]
  rw [hkv]
  cases b1 with
  | true =>
      refine ⟨rfl, rfl, ?_, fun hb1 _ => by cases hb1⟩
      show (advanceKV (preCleanup st freeEntries) _ _).logIndex = _
      simp [advanceKV, preCleanup_logIndex]
  | false =>
      cases b2 with
      | true =>
          refine ⟨rfl, rfl, ?_, fun _ hb2 => by cases hb2⟩
          show (advanceKV (emergencyCleanup _) _ _).logIndex = _
          simp [advanceKV, emergencyCleanup_logIndex, preCleanup_logIndex]
      | false =>
          have hidx : (logDataToFlashKV st
              (logEntryOf clk realNow uptimeMs data) freeEntries
              [false, false]).st.logIndex = st.logIndex := by
            show (emergencyCleanup _).logIndex = _
            simp [emergencyCleanup_logIndex, preCleanup_logIndex]
          refine ⟨rfl, rfl, by simpa using hidx, fun _ _ => ⟨hidx, ?_⟩⟩
          show OnlyRemovals st.prefs (emergencyCleanup _).prefs
          exact onlyRemovals_trans (preCleanup_onlyRemovals st freeEntries)
            (emergencyCleanup_onlyRemovals _)

/-- Witness for `append_kv_retry_behavior`: first write fails, the single
retry succeeds, and the call makes exactly two write attempts. -/
theorem append_kv_retry_behavior_w :
    (logDataToFlash wrappedState ⟨true, true⟩ 1700000000 0 sampleData 500
      true [false, true]).writeAttempts = 2 := by
  have h := append_kv_retry_behavior wrappedState ⟨true, true⟩ 1700000000 0
    sampleData 500 true false true rfl rfl rfl (by decide)
  simpa using h.1

/-! ## Legacy migration `migrateLegacyData` (AirQ.ino lines 1928-2038) -/

/-- Up-conversion of a legacy full reading to the compact record. -/
def convertLegacy (s : SensorData) : LogData :=
  ⟨s.timestamp, s.pm1_0_env, s.pm2_5_env, s.pm10_0_env, s.battery_level⟩

/-- One iteration of the `migrateLegacyData` loop for legacy index `i`:
read `"log_" + i` as a compact record, or failing that `"data_" + i` as a
full reading (up-converted); on a successful read the record is written to
the LittleFS file of the current `logIndex`, `logIndex` advances, the
migration counter increments, and the legacy key is deleted.  LittleFS
writes are assumed to succeed (a failed write would leave the key in place
and count an error). -/
def migrateOne (acc : FlashState × Nat) (i : Nat) : FlashState × Nat :=
  let st := acc.1
  match getLD st.prefs (PKey.logU i) with
  | some d =>
      ({ st with fs := fsSet st.fs st.logIndex d,
                 logIndex := st.logIndex + 1,
                 prefs := premove st.prefs (PKey.logU i) }, acc.2 + 1)
  | none =>
      match getSD st.prefs (PKey.dataK i) with
      | some s =>
          ({ st with fs := fsSet st.fs st.logIndex (convertLegacy s),
                     logIndex := st.logIndex + 1,
                     prefs := premove st.prefs (PKey.dataK i) }, acc.2 + 1)
      | none => acc

/-- The tail of `migrateLegacyData`: write the metadata file and the stored
`"logIndex"` integer, and activate LittleFS when at least one record
migrated. -/
def migrateFinish (r : FlashState × Nat) : FlashState :=
  let st2 := { r.1 with fsMeta := r.1.logIndex, prefsLogIndex := r.1.logIndex }
  if 0 < r.2 then { st2 with useLittleFS := true } else st2

/-- `migrateLegacyData`: nothing to do when the stored legacy index is 0;
otherwise every legacy index below it is migrated in increasing order and
the indices are persisted. -/
def migrateLegacyData (st : FlashState) : FlashState :=
  if st.prefsLogIndex = 0 then st
  else migrateFinish ((List.range st.prefsLogIndex).foldl migrateOne (st, 0))

/-- A legacy key-value state, as the legacy firmware leaves it: every
legacy key (`"log_" + i` or `"data_" + i`) sits at an index below the
stored legacy log index, holds a blob of the size its shape dictates, and
no index carries both shapes at once.  `j` is the lower bound used while
reasoning about the migration loop; a legacy state is `WFfrom L 0`. -/
def WFfrom (L j : Nat) (l : List (PKey × PrefVal)) : Prop :=
  ∀ kv ∈ l,
    (∀ i, kv.1 = PKey.logU i → j ≤ i ∧ i < L ∧
      (∃ d, kv.2 = PrefVal.ld d) ∧ plookup l (PKey.dataK i) = none)
    ∧ (∀ i, kv.1 = PKey.dataK i → j ≤ i ∧ i < L ∧
      (∃ s, kv.2 = PrefVal.sd s) ∧ plookup l (PKey.logU i) = none)

/-- A legacy key-value state of the firmware. -/
def WFLegacy (st : FlashState) : Prop := WFfrom st.prefsLogIndex 0 st.prefs

/-- No legacy-shaped key is present at all. -/
def NoLegacy (l : List (PKey × PrefVal)) : Prop :=
  ∀ kv ∈ l, ∀ i, kv.1 ≠ PKey.logU i ∧ kv.1 ≠ PKey.dataK i

/-! Lemmas connecting `plookup`, `premove`, `getLD`, `getSD`. -/

theorem plookup_eq_some_mem (l : List (PKey × PrefVal)) (k : PKey)
    (v : PrefVal) (h : plookup l k = some v) : (k, v) ∈ l := by
  induction l with
  | nil => cases h
  | cons a t ih =>
      by_cases ha : a.1 = k
      · rw [plookup, if_pos ha] at h
        injection h with h2
        exact List.mem_cons.mpr (Or.inl (by rw [← ha, ← h2]))
      · rw [plookup, if_neg ha] at h
        exact List.mem_cons.mpr (Or.inr (ih h))

theorem plookup_ne_none_of_mem (l : List (PKey × PrefVal))
    (kv : PKey × PrefVal) (h : kv ∈ l) (k : PKey) (hk : kv.1 = k) :
    plookup l k ≠ none := by
  induction l with
  | nil => cases h
  | cons a t ih =>
      rcases List.mem_cons.mp h with h1 | h1
      · subst h1
        simp [plookup, hk]
      · by_cases ha : a.1 = k
        · simp [plookup, ha]
        · rw [plookup, if_neg ha]
          exact ih h1

theorem mem_premove (l : List (PKey × PrefVal)) (q : PKey)
    (kv : PKey × PrefVal) (h : kv ∈ premove l q) : kv ∈ l ∧ kv.1 ≠ q := by
  induction l with
  | nil => cases h
  | cons a t ih =>
      by_cases ha : a.1 = q
      · rw [premove, if_pos ha] at h
        obtain ⟨h1, h2⟩ := ih h
        exact ⟨List.mem_cons.mpr (Or.inr h1), h2⟩
      · rw [premove, if_neg ha] at h
        rcases List.mem_cons.mp h with h1 | h1
        · subst h1
          exact ⟨List.mem_cons.mpr (Or.inl rfl), ha⟩
        · obtain ⟨h1, h2⟩ := ih h1
          exact ⟨List.mem_cons.mpr (Or.inr h1), h2⟩

theorem plookup_premove_none (l : List (PKey × PrefVal)) (k q : PKey)
    (h : plookup l k = none) : plookup (premove l q) k = none := by
  by_cases hkq : k = q
  · subst hkq
    exact plookup_premove_self l k
  · rw [plookup_premove_ne l k q hkq]
    exact h

theorem getLD_some_plookup (l : List (PKey × PrefVal)) (k : PKey)
    (d : LogData) (h : getLD l k = some d) :
    plookup l k = some (PrefVal.ld d) := by
  unfold getLD at h
  cases hv : plookup l k with
  | none => rw [hv] at h; cases h
  | some v =>
      cases v with
      | ld d2 => rw [hv] at h; injection h with h2; rw [h2]
      | sd s => rw [hv] at h; cases h

theorem getSD_some_plookup (l : List (PKey × PrefVal)) (k : PKey)
    (s : SensorData) (h : getSD l k = some s) :
    plookup l k = some (PrefVal.sd s) := by
  unfold getSD at h
  cases hv : plookup l k with
  | none => rw [hv] at h; cases h
  | some v =>
      cases v with
      | ld d2 => rw [hv] at h; cases h
      | sd s2 => rw [hv] at h; injection h with h2; rw [h2]

theorem plookup_eq_none_of_no_key (l : List (PKey × PrefVal)) (k : PKey)
    (h : ∀ kv ∈ l, kv.1 ≠ k) : plookup l k = none := by
  induction l with
  | nil => rfl
  | cons a t ih =>
      have ha := h a (List.mem_cons_self a t)
      rw [plookup, if_neg ha]
      exact ih (fun kv hkv => h kv (List.mem_cons_of_mem a hkv))

/-! The migration loop clears legacy keys in order and is a no-op on a
store with no legacy keys. -/

theorem migrateOne_noop (st : FlashState) (m i : Nat)
    (h : NoLegacy st.prefs) : migrateOne (st, m) i = (st, m) := by
  have h1 : plookup st.prefs (PKey.logU i) = none :=
    plookup_eq_none_of_no_key _ _ (fun kv hkv => (h kv hkv i).1)
  have h2 : plookup st.prefs (PKey.dataK i) = none :=
    plookup_eq_none_of_no_key _ _ (fun kv hkv => (h kv hkv i).2)
  simp [migrateOne, getLD, getSD, h1, h2]

theorem fold_migrate_noop (is : List Nat) (st : FlashState) (m : Nat)
    (h : NoLegacy st.prefs) : is.foldl migrateOne (st, m) = (st, m) := by
  induction is generalizing m with
  | nil => rfl
  | cons i t ih =>
      rw [List.foldl_cons, migrateOne_noop st m i h]
      exact ih m

theorem migrateOne_WF (L j : Nat) (st : FlashState) (m : Nat)
    (h : WFfrom L j st.prefs) :
    WFfrom L (j + 1) ((migrateOne (st, m) j).1).prefs := by
  cases hld : getLD st.prefs (PKey.logU j) with
  | some d =>
      have hpre : (migrateOne (st, m) j).1.prefs =
          premove st.prefs (PKey.logU j) := by
        simp [migrateOne, hld]
      rw [hpre]
      intro kv hkv
      obtain ⟨hmem, hne⟩ := mem_premove _ _ _ hkv
      obtain ⟨c1, c2⟩ := h kv hmem
      constructor
      · intro i hi
        obtain ⟨hj, hiL, hty, hcr⟩ := c1 i hi
        have hij : i ≠ j := fun he => hne (by rw [hi, he])
        exact ⟨by omega, hiL, hty, plookup_premove_none _ _ _ hcr⟩
      · intro i hi
        obtain ⟨hj, hiL, hty, hcr⟩ := c2 i hi
        have hij : i ≠ j := by
          intro he
          subst he
          rw [getLD_some_plookup _ _ _ hld] at hcr
          cases hcr
        exact ⟨by omega, hiL, hty, plookup_premove_none _ _ _ hcr⟩
  | none =>
      cases hsd : getSD st.prefs (PKey.dataK j) with
      | some s =>
          have hpre : (migrateOne (st, m) j).1.prefs =
              premove st.prefs (PKey.dataK j) := by
            simp [migrateOne, hld, hsd]
          rw [hpre]
          intro kv hkv
          obtain ⟨hmem, hne⟩ := mem_premove _ _ _ hkv
          obtain ⟨c1, c2⟩ := h kv hmem
          constructor
          · intro i hi
            obtain ⟨hj, hiL, hty, hcr⟩ := c1 i hi
            have hij : i ≠ j := by
              intro he
              subst he
              rw [getSD_some_plookup _ _ _ hsd] at hcr
              cases hcr
            exact ⟨by omega, hiL, hty, plookup_premove_none _ _ _ hcr⟩
          · intro i hi
            obtain ⟨hj, hiL, hty, hcr⟩ := c2 i hi
            have hij : i ≠ j := fun he => hne (by rw [hi, he])
            exact ⟨by omega, hiL, hty, plookup_premove_none _ _ _ hcr⟩
      | none =>
          have hpre : (migrateOne (st, m) j).1.prefs = st.prefs := by
            simp [migrateOne, hld, hsd]
          rw [hpre]
          intro kv hkv
          obtain ⟨c1, c2⟩ := h kv hkv
          constructor
          · intro i hi
            obtain ⟨hj, hiL, hty, hcr⟩ := c1 i hi
            have hij : i ≠ j := by
              intro he
              subst he
              rcases hv : plookup st.prefs (PKey.logU i) with _ | v
              · exact plookup_ne_none_of_mem _ kv hkv _ hi hv
              · obtain ⟨cv1, _⟩ := h (PKey.logU i, v)
                  (plookup_eq_some_mem _ _ _ hv)
                obtain ⟨_, _, ⟨d2, hd2⟩, _⟩ := cv1 i rfl
                have : getLD st.prefs (PKey.logU i) = some d2 := by
                  unfold getLD
                  rw [hv]
                  dsimp only at hd2
                  rw [hd2]
                rw [this] at hld
                cases hld
            exact ⟨by omega, hiL, hty, hcr⟩
          · intro i hi
            obtain ⟨hj, hiL, hty, hcr⟩ := c2 i hi
            have hij : i ≠ j := by
              intro he
              subst he
              rcases hv : plookup st.prefs (PKey.dataK i) with _ | v
              · exact plookup_ne_none_of_mem _ kv hkv _ hi hv
              · obtain ⟨_, cv2⟩ := h (PKey.dataK i, v)
                  (plookup_eq_some_mem _ _ _ hv)
                obtain ⟨_, _, ⟨s2, hs2⟩, _⟩ := cv2 i rfl
                have : getSD st.prefs (PKey.dataK i) = some s2 := by
                  unfold getSD
                  rw [hv]
                  dsimp only at hs2
                  rw [hs2]
                rw [this] at hsd
                cases hsd
            exact ⟨by omega, hiL, hty, hcr⟩

theorem fold_WF (L : Nat) (n : Nat) : ∀ (j : Nat) (st : FlashState) (m : Nat),
    WFfrom L j st.prefs →
    WFfrom L (j + n) (((List.range' j n).foldl migrateOne (st, m)).1).prefs := by
  induction n with
  | zero =>
      intro j st m h
      simpa using h
  | succ k ih =>
      intro j st m h
      have hcons : List.range' j (k + 1) = j :: List.range' (j + 1) k := rfl
      rw [hcons, List.foldl_cons]
      have h1 := migrateOne_WF L j st m h
      have h2 := ih (j + 1) (migrateOne (st, m) j).1
        (migrateOne (st, m) j).2 h1
      have he : j + 1 + k = j + (k + 1) := by omega
      rw [he] at h2
      exact h2

theorem noLegacy_of_WF_top (L : Nat) (l : List (PKey × PrefVal))
    (h : WFfrom L L l) : NoLegacy l := by
  intro kv hkv i
  obtain ⟨c1, c2⟩ := h kv hkv
  constructor
  · intro he
    obtain ⟨hj, hiL, _, _⟩ := c1 i he
    omega
  · intro he
    obtain ⟨hj, hiL, _, _⟩ := c2 i he
    omega

/-! Projections of `migrateFinish`. -/

theorem migrateFinish_prefs (r : FlashState × Nat) :
    (migrateFinish r).prefs = r.1.prefs := by
  unfold migrateFinish; split <;> rfl

theorem migrateFinish_logIndex (r : FlashState × Nat) :
    (migrateFinish r).logIndex = r.1.logIndex := by
  unfold migrateFinish; split <;> rfl

theorem migrateFinish_fsMeta (r : FlashState × Nat) :
    (migrateFinish r).fsMeta = r.1.logIndex := by
  unfold migrateFinish; split <;> rfl

theorem migrateFinish_prefsLogIndex (r : FlashState × Nat) :
    (migrateFinish r).prefsLogIndex = r.1.logIndex := by
  unfold migrateFinish; split <;> rfl

/-- Migration of a store with no legacy keys and already-consistent indices
changes nothing at all. -/
theorem migrate_noop (s : FlashState) (hs : NoLegacy s.prefs)
    (hmeta : s.fsMeta = s.logIndex) (hpli : s.prefsLogIndex = s.logIndex) :
    migrateLegacyData s = s := by
  by_cases hL : s.prefsLogIndex = 0
  · unfold migrateLegacyData
    rw [if_pos hL]
  · unfold migrateLegacyData
    rw [if_neg hL, fold_migrate_noop (List.range s.prefsLogIndex) s 0 hs]
    unfold migrateFinish
    rw [if_neg (by simp)]
    obtain ⟨p, pli, fs, fm, li, u, le⟩ := s
    dsimp only at hmeta hpli ⊢
    rw [hmeta, hpli]

/-- C5: on every legacy key-value state (`WFLegacy`: legacy keys of the two
shapes sit below the stored legacy index, hold blobs of the matching size,
and no index carries both shapes), running `migrateLegacyData` twice in
succession yields exactly the same state — same file-store records, same
`logIndex`, same metadata — as running it once, and after migration zero
legacy keys remain in the key-value store.  LittleFS writes are modelled as
succeeding. -/
theorem migrate_idempotent (st : FlashState) (hWF : WFLegacy st) :
    migrateLegacyData (migrateLegacyData st) = migrateLegacyData st
    ∧ NoLegacy (migrateLegacyData st).prefs := by
  by_cases hL : st.prefsLogIndex = 0
  · have h1 : migrateLegacyData st = st := by
      unfold migrateLegacyData
      rw [if_pos hL]
    have h2 : NoLegacy st.prefs := by
      intro kv hkv i
      obtain ⟨c1, c2⟩ := hWF kv hkv
      constructor
      · intro he
        obtain ⟨_, hiL, _, _⟩ := c1 i he
        omega
      · intro he
        obtain ⟨_, hiL, _, _⟩ := c2 i he
        omega
    rw [h1]
    exact ⟨by rw [h1], h2⟩
  · have hout : migrateLegacyData st =
        migrateFinish ((List.range st.prefsLogIndex).foldl migrateOne (st, 0)) := by
      unfold migrateLegacyData
      rw [if_neg hL]
    have hWFtop : WFfrom st.prefsLogIndex st.prefsLogIndex
        (((List.range st.prefsLogIndex).foldl migrateOne (st, 0)).1).prefs := by
      have h0 := fold_WF st.prefsLogIndex st.prefsLogIndex 0 st 0 hWF
      rw [Nat.zero_add] at h0
      rw [List.range_eq_range']
      exact h0
    have hNoPrefs : NoLegacy
        (((List.range st.prefsLogIndex).foldl migrateOne (st, 0)).1).prefs :=
      noLegacy_of_WF_top _ _ hWFtop
    have hNo : NoLegacy (migrateLegacyData st).prefs := by
      rw [hout, migrateFinish_prefs]
      exact hNoPrefs
    refine ⟨?_, hNo⟩
    apply migrate_noop
    · exact hNo
    · rw [hout, migrateFinish_fsMeta, migrateFinish_logIndex]
    · rw [hout, migrateFinish_prefsLogIndex, migrateFinish_logIndex]

/-- A concrete one-record legacy state. -/
def legacyState : FlashState :=
  { prefs := [(PKey.logU 0, PrefVal.ld ⟨1650000000, 5, 6, 7, 80⟩)],
    prefsLogIndex := 1, fs := [], fsMeta := 0,
    logIndex := 0, useLittleFS := false, lastError := 0 }

/-- Witness for `migrate_idempotent` on the one-record legacy state. -/
theorem migrate_idempotent_w :
    migrateLegacyData (migrateLegacyData legacyState) =
      migrateLegacyData legacyState := by
  have hwf : WFLegacy legacyState := by
    intro kv hkv
    have hkv2 : kv = (PKey.logU 0, PrefVal.ld ⟨1650000000, 5, 6, 7, 80⟩) := by
      simpa [legacyState] using hkv
    subst hkv2
    constructor
    · intro i hi
      have hi0 : i = 0 := by
        have := PKey.logU.inj hi
        omega
      subst hi0
      exact ⟨by omega, by simp [legacyState], ⟨_, rfl⟩, by simp [plookup]⟩
    · intro i hi
      cases hi
  exact (migrate_idempotent legacyState hwf).1

/-! ## Chunked transfer controller
(`prepareLoggedDataForChunking` / `loadNextBatch` / `sendLoggedDataChunk`,
AirQ.ino lines 839-989, and the chunk-request handler at lines 247-273).
Arduino `String` text is modelled as `List Char`. -/

/-- Tail-recursive list length, modelling `String::length()`.  The
accumulator is matched on so that evaluation normalises it at every step
instead of accumulating suspended additions. -/
def slenAux : Nat → List Char → Nat
  | n, [] => n
  | Nat.zero, _ :: t => slenAux 1 t
  | Nat.succ m, _ :: t => slenAux (m + 2) t

/-- The length of a piece of text. -/
def slen (l : List Char) : Nat := slenAux 0 l

theorem slenAux_eq (l : List Char) : ∀ n, slenAux n l = n + l.length := by
  induction l with
  | nil => intro n; cases n <;> simp [slenAux]
  | cons a t ih =>
      intro n
      cases n with
      | zero =>
          rw [slenAux, ih 1]
          simp [List.length_cons]
          omega
      | succ m =>
          rw [slenAux, ih (m + 2)]
          simp [List.length_cons]
          omega

/-- `slen` agrees with `List.length`. -/
theorem slen_eq_length (l : List Char) : slen l = l.length := by
  rw [slen, slenAux_eq l 0, Nat.zero_add]

/-- Decimal rendering of a field, as `String(value)` produces. -/
def natChars (n : Nat) : List Char := Nat.toDigits 10 n

/-- The serialized text of one record:
`timestamp,pm1,pm2_5,pm10,battery;`. -/
def serializeLog (d : LogData) : List Char :=
  natChars d.timestamp ++ [','] ++ natChars d.pm1_0_env ++ [','] ++
    natChars d.pm2_5_env ++ [','] ++ natChars d.pm10_0_env ++ [','] ++
    natChars d.battery_level ++ [';']

/-- The placeholder text the firmware caches when a batch loads nothing. -/
def noDataMsg : List Char := "No data available".data

/-- The transfer-session state: the cached serialized text, the estimated
chunk count, the client cursor, and the batching window. -/
structure ChunkState where
  loggedDataCache : List Char
  totalChunks : Nat
  currentChunk : Nat
  totalEntriesToSend : Nat
  entriesProcessed : Nat
  startEntryIndex : Nat
deriving DecidableEq, Repr

/-- One record load inside `loadNextBatch`: LittleFS first when active
(valid when the timestamp is positive), then the current NVS slot key, then
the legacy NVS key (up-converted). -/
def loadEntry (env : FlashState) (actualIndex : Nat) : Option LogData :=
  let fromFS : Option LogData :=
    if env.useLittleFS then
      let e := readLogFromLittleFS env actualIndex
      if 0 < e.timestamp then some e else none
    else none
  match fromFS with
  | some d => some d
  | none =>
      match getLD env.prefs (PKey.log (actualIndex % MAX_LOG_ENTRIES)) with
      | some d => some d
      | none =>
          (getSD env.prefs (PKey.logU (actualIndex % MAX_LOG_ENTRIES))).map
            convertLegacy

/-- `loadNextBatch`: clears the cache, serializes the next
`ENTRIES_PER_BATCH` loadable records of the window into it, advances
`entriesProcessed`, and falls back to the placeholder text when nothing
loaded. -/
def loadNextBatch (env : FlashState) (cs : ChunkState) : ChunkState :=
  let batchEnd := min (cs.entriesProcessed + ENTRIES_PER_BATCH)
    cs.totalEntriesToSend
  let cache := ((List.range' cs.entriesProcessed
      (batchEnd - cs.entriesProcessed)).map (fun i =>
        match loadEntry env (cs.startEntryIndex + i) with
        | some d => serializeLog d
        | none => [])).flatten
  let cache := if cache.isEmpty then noDataMsg else cache
  { cs with loggedDataCache := cache, entriesProcessed := batchEnd }

/-- `prepareLoggedDataForChunking`: computes the retained window, estimates
`totalChunks` at 30 characters per entry against the chunk budget, resets
the session and loads the first batch. -/
def prepareLoggedDataForChunking (env : FlashState) : ChunkState :=
  let startEntryIndex := env.logIndex - MAX_LOG_ENTRIES
  let totalEntriesToSend := min env.logIndex MAX_LOG_ENTRIES
  let estimatedChars := totalEntriesToSend * 30
  let totalChunks := max 1 ((estimatedChars + MAX_CHUNK_SIZE - 1) / MAX_CHUNK_SIZE)
  loadNextBatch env
    { loggedDataCache := [], totalChunks := totalChunks, currentChunk := 0,
      totalEntriesToSend := totalEntriesToSend, entriesProcessed := 0,
      startEntryIndex := startEntryIndex }

/-- First phase of `sendLoggedDataChunk`: an empty cache triggers a full
re-prepare. -/
def sendChunkEnsure (env : FlashState) (cs : ChunkState) : ChunkState :=
  if cs.loggedDataCache.isEmpty then prepareLoggedDataForChunking env
  else cs

/-- Second phase: when the cache is smaller than one chunk and records
remain, the next batch is loaded — replacing the cache (the undelivered
tail of the previous batch is discarded; the saved `existingData` is never
appended back). -/
def sendChunkRefill (env : FlashState) (cs : ChunkState) : ChunkState :=
  if slen cs.loggedDataCache < MAX_CHUNK_SIZE ∧
      cs.entriesProcessed < cs.totalEntriesToSend then
    loadNextBatch env cs
  else cs

/-- Third phase: slice up to `MAX_CHUNK_SIZE` characters off the front of
the cache and trim them; an exhausted session yields the empty payload, a
failed load the placeholder text.  The slice runs to
`endPos = min(MAX_CHUNK_SIZE, length)`; since `take` and `drop` already
clamp at the end of the text, the slice is `take MAX_CHUNK_SIZE` and the
trim (`substring(endPos)` when `endPos < length`, else the empty string)
is `drop MAX_CHUNK_SIZE`. -/
def sendChunkSlice (cs : ChunkState) : ChunkState × List Char :=
  if cs.loggedDataCache.isEmpty = false then
    ({ cs with loggedDataCache := cs.loggedDataCache.drop MAX_CHUNK_SIZE },
      cs.loggedDataCache.take MAX_CHUNK_SIZE)
  else if cs.totalEntriesToSend ≤ cs.entriesProcessed then (cs, [])
  else (cs, noDataMsg)

/-- `sendLoggedDataChunk`: the three phases in sequence; returns the new
session state and the payload pushed on the historical-data
characteristic. -/
def sendLoggedDataChunk (env : FlashState) (cs : ChunkState) :
    ChunkState × List Char :=
  sendChunkSlice (sendChunkRefill env (sendChunkEnsure env cs))

/-- The chunk-request write handler
(`MyCharacteristicCallbacks::onWrite`, CHUNK_REQUEST_UUID branch): `-1`
re-prepares; an in-range index updates the cursor and immediately sends a
chunk; anything else is rejected with no state change. -/
def requestChunk (env : FlashState) (cs : ChunkState) (k : Int) :
    ChunkState × Option (List Char) :=
  if k = -1 then (prepareLoggedDataForChunking env, none)
  else if 0 ≤ k ∧ k < (cs.totalChunks : Int) then
    let cs1 := { cs with currentChunk := k.toNat }
    let r := sendLoggedDataChunk env cs1
    (r.1, some r.2)
  else (cs, none)

/-- Serving a list of chunk requests in order, collecting the delivered
payloads. -/
def serveChunks (env : FlashState) (cs : ChunkState) (ks : List Int) :
    ChunkState × List (List Char) :=
  ks.foldl (fun acc k =>
    let r := requestChunk env acc.1 k
    (r.1, acc.2 ++ r.2.toList)) (cs, [])

/-- The serialized form of all records in the prepared window, in order:
the reference value a complete transfer should reconstruct. -/
def windowSerialization (env : FlashState) : List Char :=
  ((List.range' (env.logIndex - MAX_LOG_ENTRIES)
      (min env.logIndex MAX_LOG_ENTRIES)).map (fun i =>
        match loadEntry env i with
        | some d => serializeLog d
        | none => [])).flatten

/-- A store with `n` LittleFS records, each serializing to 25 characters
(10-digit timestamp, 3+2+3-digit particulates, 2-digit battery). -/
def mkRec (i : Nat) : LogData := ⟨1700000000 + i, 100, 10, 100, 50⟩

def mkEnv (n : Nat) : FlashState :=
  { prefs := [], prefsLogIndex := 0,
    fs := (List.range n).map (fun i => (i, mkRec i)), fsMeta := n,
    logIndex := n, useLittleFS := true, lastError := 0 }

/-- The increasing chunk-request sequence `0, 1, ..., n-1`. -/
def chunkIndices (n : Nat) : List Int := (List.range n).map (fun i => (i : Int))

/-- Records for the batch-gap scenario: record 0 serializes to 11
characters, the rest to 10, so the first 200-record batch caches 2001
characters — five full 400-byte chunks plus one undelivered character. -/
def mkRecS (i : Nat) : LogData := ⟨if i = 0 then 10 else 1, 0, 0, 0, 0⟩

/-- A store of 201 such records: two batches. -/
def gapEnv : FlashState :=
  { prefs := [], prefsLogIndex := 0,
    fs := (List.range 201).map (fun i => (i, mkRecS i)), fsMeta := 201,
    logIndex := 201, useLittleFS := true, lastError := 0 }

set_option maxHeartbeats 16000000 in
/-- C2 evidence: a prepared session over 201 records (16 chunks) served in
increasing order does not reconstruct the window.  The window serializes to
2011 characters, but the delivered concatenation has 5620: at the first
refill `loadNextBatch` clears the cache, discarding the undelivered
1-character tail of batch one (the saved `existingData` is never appended
back, despite the "Continue from where we left off" comment, AirQ.ino
953-960), and once the cache empties the controller re-prepares and serves
batch one again, duplicating data. -/
theorem chunk_concat_incomplete :
    (prepareLoggedDataForChunking gapEnv).totalChunks = 16
    ∧ slen (windowSerialization gapEnv) = 2011
    ∧ slen ((serveChunks gapEnv (prepareLoggedDataForChunking gapEnv)
        (chunkIndices 16)).2.flatten) = 5620
    ∧ (serveChunks gapEnv (prepareLoggedDataForChunking gapEnv)
        (chunkIndices 16)).2.flatten ≠ windowSerialization gapEnv := by
  have h1 : slen (windowSerialization gapEnv) = 2011 := by decide
  have h2 : slen ((serveChunks gapEnv (prepareLoggedDataForChunking gapEnv)
      (chunkIndices 16)).2.flatten) = 5620 := by decide
  refine ⟨by decide, h1, h2, fun h => ?_⟩
  rw [h, h1] at h2
  cases h2

/-! ## C6: repeated or out-of-range chunk requests -/

theorem loadNextBatch_currentChunk (env : FlashState) (cs : ChunkState)
    (a : Nat) :
    loadNextBatch env { cs with currentChunk := a } =
      { loadNextBatch env cs with currentChunk := a } := by
  cases cs
  rfl

theorem sendChunkRefill_currentChunk (env : FlashState) (cs : ChunkState)
    (a : Nat) :
    sendChunkRefill env { cs with currentChunk := a } =
      { sendChunkRefill env cs with currentChunk := a } := by
  cases cs with
  | mk c tc cc tes ep sei =>
      unfold sendChunkRefill
      by_cases h : slen c < MAX_CHUNK_SIZE ∧ ep < tes
      · rw [if_pos h, if_pos h]
        exact loadNextBatch_currentChunk env ⟨c, tc, cc, tes, ep, sei⟩ a
      · rw [if_neg h, if_neg h]

theorem sendChunkSlice_currentChunk_payload (cs : ChunkState) (a : Nat) :
    (sendChunkSlice { cs with currentChunk := a }).2 =
      (sendChunkSlice cs).2 := by
  cases cs with
  | mk c tc cc tes ep sei =>
      unfold sendChunkSlice
      by_cases h1 : c.isEmpty = false
      · rw [if_pos h1, if_pos h1]
      · rw [if_neg h1, if_neg h1]
        by_cases h2 : tes ≤ ep
        · rw [if_pos h2, if_pos h2]
        · rw [if_neg h2, if_neg h2]

theorem sendLoggedDataChunk_payload_cc (env : FlashState) (cs : ChunkState)
    (a b : Nat) :
    (sendLoggedDataChunk env { cs with currentChunk := a }).2 =
      (sendLoggedDataChunk env { cs with currentChunk := b }).2 := by
  unfold sendLoggedDataChunk sendChunkEnsure
  by_cases h : cs.loggedDataCache.isEmpty = true
  · cases cs
    rw [if_pos h, if_pos h]
  · cases cs with
    | mk c tc cc tes ep sei =>
        rw [if_neg h, if_neg h]
        rw [sendChunkRefill_currentChunk env ⟨c, tc, cc, tes, ep, sei⟩ a,
          sendChunkRefill_currentChunk env ⟨c, tc, cc, tes, ep, sei⟩ b]
        have ha := sendChunkSlice_currentChunk_payload
          (sendChunkRefill env ⟨c, tc, cc, tes, ep, sei⟩) a
        have hb := sendChunkSlice_currentChunk_payload
          (sendChunkRefill env ⟨c, tc, cc, tes, ep, sei⟩) b
        exact ha.trans hb.symm

/-- C6 (amended): an in-range chunk request — repeated, earlier or later —
always delivers the next unsent slice of the cache: the payload does not
depend on the requested index at all (the index only updates the cursor);
out-of-range indices other than the `-1` prepare sentinel are rejected with
no state change.  (The claim's re-slice/reload behaviour does not exist:
see `repeat_chunk_request_not_same`.) -/
theorem chunk_request_payload_indep (env : FlashState) (cs : ChunkState)
    (k j : Int) (hk : 0 ≤ k ∧ k < (cs.totalChunks : Int))
    (hj : 0 ≤ j ∧ j < (cs.totalChunks : Int)) :
    (requestChunk env cs k).2 = (requestChunk env cs j).2
    ∧ (∀ m : Int, m ≠ -1 → ¬(0 ≤ m ∧ m < (cs.totalChunks : Int)) →
        requestChunk env cs m = (cs, none)) := by
  constructor
  · have hk1 : k ≠ -1 := by omega
    have hj1 : j ≠ -1 := by omega
    unfold requestChunk
    rw [if_neg hk1, if_neg hj1, if_pos hk, if_pos hj]
    exact congrArg some (sendLoggedDataChunk_payload_cc env cs k.toNat j.toNat)
  · intro m hm1 hm2
    unfold requestChunk
    rw [if_neg hm1, if_neg hm2]

/-- Witness for `chunk_request_payload_indep`: over a 40-record store the
payload for a request of chunk 2 equals the payload a request of chunk 0
would deliver from the same state, and chunk request 7 is rejected. -/
theorem chunk_request_payload_indep_w :
    (requestChunk (mkEnv 40) (prepareLoggedDataForChunking (mkEnv 40)) 0).2 =
      (requestChunk (mkEnv 40) (prepareLoggedDataForChunking (mkEnv 40)) 2).2 := by
  exact (chunk_request_payload_indep (mkEnv 40)
    (prepareLoggedDataForChunking (mkEnv 40)) 0 2
    (by constructor <;> decide) (by constructor <;> decide)).1

set_option maxHeartbeats 16000000 in
/-- C6 counterexample: requesting the same chunk index 0 twice delivers two
different payloads — the controller does not re-slice the bytes the index
previously denoted; it always ships the next unsent slice. -/
theorem repeat_chunk_request_not_same :
    (requestChunk (mkEnv 40) (prepareLoggedDataForChunking (mkEnv 40)) 0).2 ≠
      (requestChunk (mkEnv 40)
        (requestChunk (mkEnv 40) (prepareLoggedDataForChunking (mkEnv 40)) 0).1
        0).2 := by
  decide

/-! ## C7: the 450-record prepare scenario -/

def env450 : FlashState := mkEnv 450

def c7state : ChunkState := prepareLoggedDataForChunking env450

def c7p0 : List Char := (requestChunk env450 c7state 0).2.getD []

def c7p1 : List Char :=
  (requestChunk env450 (requestChunk env450 c7state 0).1 1).2.getD []

/-- C7 counterexample: with 450 retained records of 25 serialized bytes
each and the 400-byte chunk budget, prepare does not set
`totalChunks = ceil(450*25/400) = 29`: the code estimates 30 bytes per
record, giving 34. -/
theorem prepare_450_total_chunks_ne_29 :
    (prepareLoggedDataForChunking (mkEnv 450)).totalChunks ≠ 29 := by decide

set_option maxHeartbeats 16000000 in
/-- C7 (amended): the 450-record prepare sets
`totalChunks = max(1, ceil(450*30/400)) = 34` (the code estimates 30
characters per entry, not the actual 25); requesting chunk 0 and then
chunk 1 yields two payloads of at most 400 bytes each whose concatenation
is the first 800 characters of the full serialization — a strict prefix,
since the serialization continues past 800 characters. -/
theorem prepare_450_chunking :
    c7state.totalChunks = 34
    ∧ slen c7p0 ≤ 400 ∧ slen c7p1 ≤ 400
    ∧ c7p0 ++ c7p1 = (windowSerialization env450).take 800
    ∧ (windowSerialization env450).drop 800 ≠ [] := by
  refine ⟨by decide, by decide, by decide, by decide, by decide⟩

/-! ## BLE task live-push loop (BLETask / safeBLEUpdate, AirQ.ino
lines 1295-1381) -/

/-- `safeBLEUpdate`, reduced to whether it pushes: it requires BLE
initialised, a connected client, both live characteristics present, and
the shared-slot mutex acquired within its 100 ms timeout; any miss returns
without pushing. -/
def safeBLEUpdate (bleInit connected charsOk mutexOk : Bool) : Bool :=
  bleInit && connected && charsOk && mutexOk

/-- One iteration of the BLE task loop: when BLE is initialised and the
device is connected with a live server object and fresh data
(`newDataAvailable`), `safeBLEUpdate` is called and the dirty flag is reset
immediately afterwards, whatever the call did.  Returns the flag after the
iteration and whether a push happened. -/
def bleTaskIter (bleInit connected pServerOk charsOk mutexOk newData : Bool) :
    Bool × Bool :=
  if bleInit then
    if connected && pServerOk && newData then
      (false, safeBLEUpdate bleInit connected charsOk mutexOk)
    else (newData, false)
  else (newData, false)

/-- C9 counterexample: with the device connected, fresh data flagged, but
the mutex unavailable, the push is skipped — and the dirty flag is cleared
anyway (`newDataAvailable = false` is assigned right after
`safeBLEUpdate()` returns, AirQ.ino 1362-1365), so the claim's "after a
skipped push attempt the flag remains set" is false. -/
theorem skipped_push_clears_flag :
    bleTaskIter true true true true false true = (false, false) := by decide

/-- C9 (amended): a live-data push happens only when the connection is up
and the dirty flag is set; but the flag is cleared after every attempted
update made while connected with fresh data — including attempts skipped
because the mutex was not acquired — not only after successful pushes. -/
theorem ble_push_flag_behavior (bi c ps co mu nd : Bool) :
    ((bleTaskIter bi c ps co mu nd).2 = true → c = true ∧ nd = true)
    ∧ (bi = true → c = true → ps = true → nd = true →
        (bleTaskIter bi c ps co mu nd).1 = false)
    ∧ (mu = false → (bleTaskIter bi c ps co mu nd).2 = false) := by
  cases bi <;> cases c <;> cases ps <;> cases co <;> cases mu <;> cases nd <;>
    simp [bleTaskIter, safeBLEUpdate]

/-- Witness for `ble_push_flag_behavior`: a connected iteration with the
mutex unavailable still clears the flag. -/
theorem ble_push_flag_behavior_w :
    (bleTaskIter true true true true false true).1 = false :=
  (ble_push_flag_behavior true true true true false true).2.1 rfl rfl rfl rfl

end AirQ
